import Mathlib

/-!
Shallow embedding of the `sl_departures` integration
(`custom_components/sl_departures/__init__.py`, `sensor.py`): JSON-shaped
Python values, the departure filter of `SLDeparturesCoordinator`, the
time arithmetic and derived attributes of `SLDeparturesSensor`, and a
spec-modelled refresh scheduler / next-active view for the parts whose
code is not in the repository snapshot.

Python exceptions are made explicit with `Except`: an operation that can
raise returns `Except PyExc`, and a `try/except (ValueError, TypeError)`
block is the `catchVT` combinator.  Machine reals never appear: Python
`datetime` instants are integer microseconds, and `int(x / 60)` on a
whole number of microseconds is `Int.tdiv` (truncation toward zero),
matching CPython for the magnitudes involved.
-/

/-- Python exception classes that the embedded code can raise. -/
inductive PyExc where
  | valueError
  | typeError
  | attributeError

/-- JSON-shaped Python value, as produced by `response.json()`. -/
inductive PyVal where
  | none
  | str (s : String)
  | int (n : Int)
  | bool (b : Bool)
  | list (xs : List PyVal)
  | dict (kvs : List (String × PyVal))

/-- First-match association-list lookup (a Python `dict` has unique keys,
so first-match agrees with dict lookup). -/
def alookup (kvs : List (String × PyVal)) (k : String) : Option PyVal :=
  match kvs with
  | [] => Option.none
  | (k₀, v) :: rest => if k₀ = k then some v else alookup rest k

/-- Python `d.get(k, default)`: the stored value if the key is present
(even when that value is `None`), else the default. -/
def alookupD (kvs : List (String × PyVal)) (k : String) (d : PyVal) : PyVal :=
  match alookup kvs k with
  | some v => v
  | Option.none => d

/-- Python attribute access `v.get(k, default)`: raises `AttributeError`
unless `v` is a dict. -/
def dictGetD (v : PyVal) (k : String) (d : PyVal) : Except PyExc PyVal :=
  match v with
  | .dict kvs => .ok (alookupD kvs k d)
  | _ => .error .attributeError

/-- Python truthiness of a JSON-shaped value. -/
def pyTruthy : PyVal → Bool
  | .none => false
  | .str s => s ≠ ""
  | .int n => n ≠ 0
  | .bool b => b
  | .list xs => !xs.isEmpty
  | .dict kvs => !kvs.isEmpty

/-- Python `str(v)` for the scalar values that can appear in a departure
record; container reprs are abstracted as a fixed marker (never compared
against by the embedded code paths under study). -/
def pyStr : PyVal → String
  | .none => "None"
  | .str s => s
  | .int n => toString n
  | .bool b => if b then "True" else "False"
  | .list _ => "<list repr>"
  | .dict _ => "<dict repr>"

/-- Python `v == lit` for a string literal `lit`: only a `str` value can
compare equal to a string. -/
def pyEqStr (v : PyVal) (lit : String) : Bool :=
  match v with
  | .str s => s = lit
  | _ => false

/-- Python `v in xs` for a list `xs` of strings. -/
def pyInStrList (v : PyVal) (xs : List String) : Bool :=
  match v with
  | .str s => xs.contains s
  | _ => false

/-- Calling a `str` method (here `.replace`) on a non-string raises
`AttributeError`. -/
def asStr : PyVal → Except PyExc String
  | .str s => .ok s
  | _ => .error .attributeError

/-- Python iteration over a value: lists yield their elements, strings
their characters, dicts their keys; other values raise `TypeError`. -/
def pyIter : PyVal → Except PyExc (List PyVal)
  | .list xs => .ok xs
  | .str s => .ok (s.toList.map fun c => .str (String.mk [c]))
  | .dict kvs => .ok (kvs.map fun kv => .str kv.1)
  | _ => .error .typeError

/-- A `try: ... except (ValueError, TypeError): return fallback` block. -/
def catchVT {α : Type} (body : Except PyExc α) (fallback : α) : Except PyExc α :=
  match body with
  | .error .valueError => .ok fallback
  | .error .typeError => .ok fallback
  | other => other

/-- Python `s.replace("Z", "+00:00")` on the character list of `s`
(the pattern is the single character Z, so per-character expansion is
exact). -/
def replaceZ : List Char → List Char
  | [] => []
  | c :: cs =>
      if c = 'Z' then '+' :: '0' :: '0' :: ':' :: '0' :: '0' :: replaceZ cs
      else c :: replaceZ cs

/-- Python `s.strip()`: drop leading and trailing whitespace. -/
def trimChars (cs : List Char) : List Char :=
  ((cs.dropWhile Char.isWhitespace).reverse.dropWhile Char.isWhitespace).reverse

/-- Python `s.split(",")` on a character list. -/
def splitOnComma : List Char → List (List Char)
  | [] => [[]]
  | c :: cs =>
      if c = ',' then [] :: splitOnComma cs
      else
        match splitOnComma cs with
        | [] => [[c]]
        | g :: gs => (c :: g) :: gs

/-- Gregorian leap-year test. -/
def isLeap (y : Nat) : Bool :=
  y % 4 = 0 && (y % 100 ≠ 0 || y % 400 = 0)

/-- Length of a month in the proleptic Gregorian calendar. -/
def daysInMonth (y m : Nat) : Nat :=
  if m = 2 then (if isLeap y then 29 else 28)
  else if m = 4 ∨ m = 6 ∨ m = 9 ∨ m = 11 then 30
  else 31

/-- Days from 1970-01-01 to year `y`, month `m`, day `d` (valid Gregorian
date, `1 ≤ y`), the civil-from-days algorithm used by `datetime`'s ordinal
arithmetic. -/
def daysFromCivil (y m d : Nat) : Int :=
  let yy := if m ≤ 2 then y - 1 else y
  let era := yy / 400
  let yoe := yy % 400
  let mp := if 2 < m then m - 3 else m + 9
  let doy := (153 * mp + 2) / 5 + (d - 1)
  let doe := yoe * 365 + yoe / 4 - yoe / 100 + doy
  (era * 146097 + doe : Int) - 719468

/-- A Python `datetime`: wall-clock reading in microseconds counted from
the epoch of the civil reading itself, plus an optional UTC-offset in
seconds (`None` for a naive datetime). -/
structure PyDatetime where
  wallUs : Int
  offS : Option Int

/-- Absolute instant (microseconds since the Unix epoch) of an aware
datetime. -/
def PyDatetime.epochUs (dt : PyDatetime) (o : Int) : Int :=
  dt.wallUs - o * 1000000

/-- Read exactly `n` decimal digits, accumulating into `acc`. -/
def readN : Nat → Nat → List Char → Option (Nat × List Char)
  | 0, acc, cs => some (acc, cs)
  | _ + 1, _, [] => Option.none
  | n + 1, acc, c :: cs =>
      if c.isDigit then readN n (acc * 10 + (c.toNat - 48)) cs else Option.none

/-- Consume one expected character. -/
def expectChar (c : Char) : List Char → Option (List Char)
  | [] => Option.none
  | d :: cs => if d = c then some cs else Option.none

/-- Value of a digit list read as a decimal number. -/
def digitsVal (ds : List Char) : Nat :=
  ds.foldl (fun acc c => acc * 10 + (c.toNat - 48)) 0

/-- Parse a fractional-second field of one to six digits into
microseconds (`datetime.fromisoformat` accepts fractional seconds up to
microsecond precision; longer fractions are rejected). -/
def readFrac (cs : List Char) : Option (Nat × List Char) :=
  let ds := cs.takeWhile Char.isDigit
  if ds = [] then Option.none
  else if 6 < ds.length then Option.none
  else some (digitsVal ds * 10 ^ (6 - ds.length), cs.drop ds.length)

/-- Parse the optional trailing UTC offset `±HH:MM`; returns the offset in
seconds.  A `timezone` offset must be strictly less than 24 hours. -/
def parseOffset : List Char → Option (Option Int × List Char)
  | [] => some (Option.none, [])
  | c :: cs =>
      if c = '+' ∨ c = '-' then
        match readN 2 0 cs with
        | Option.none => Option.none
        | some (oh, cs₁) =>
        match expectChar ':' cs₁ with
        | Option.none => Option.none
        | some cs₂ =>
        match readN 2 0 cs₂ with
        | Option.none => Option.none
        | some (om, cs₃) =>
          if oh ≤ 23 ∧ om ≤ 59 then
            let secs : Int := (oh * 3600 + om * 60 : Nat)
            some (some (if c = '-' then -secs else secs), cs₃)
          else Option.none
      else Option.none

/-- Parse the time-of-day part `HH[:MM[:SS[.ffffff]]]` into
(microseconds within the day, rest). -/
def parseTime (cs : List Char) : Option (Nat × List Char) :=
  match readN 2 0 cs with
  | Option.none => Option.none
  | some (h, cs₁) =>
    if 23 < h then Option.none
    else
      match expectChar ':' cs₁ with
      | Option.none => some (h * 3600000000, cs₁)
      | some cs₂ =>
        match readN 2 0 cs₂ with
        | Option.none => Option.none
        | some (mi, cs₃) =>
          if 59 < mi then Option.none
          else
            match expectChar ':' cs₃ with
            | Option.none => some ((h * 3600 + mi * 60) * 1000000, cs₃)
            | some cs₄ =>
              match readN 2 0 cs₄ with
              | Option.none => Option.none
              | some (s, cs₅) =>
                if 59 < s then Option.none
                else
                  match expectChar '.' cs₅ with
                  | Option.none =>
                      some ((h * 3600 + mi * 60 + s) * 1000000, cs₅)
                  | some cs₆ =>
                    match readFrac cs₆ with
                    | Option.none => Option.none
                    | some (us, cs₇) =>
                        some ((h * 3600 + mi * 60 + s) * 1000000 + us, cs₇)

/-- Python `datetime.fromisoformat` (the subset relevant here):
`YYYY-MM-DD[{T or space}HH[:MM[:SS[.ffffff]]][±HH:MM]]`, with full
range validation; anything else raises `ValueError` (modelled as
`Option.none`). -/
def fromisoChars (cs : List Char) : Option PyDatetime :=
  match readN 4 0 cs with
  | Option.none => Option.none
  | some (y, cs₁) =>
  match expectChar '-' cs₁ with
  | Option.none => Option.none
  | some cs₂ =>
  match readN 2 0 cs₂ with
  | Option.none => Option.none
  | some (mo, cs₃) =>
  match expectChar '-' cs₃ with
  | Option.none => Option.none
  | some cs₄ =>
  match readN 2 0 cs₄ with
  | Option.none => Option.none
  | some (d, cs₅) =>
    if ¬ (1 ≤ y ∧ 1 ≤ mo ∧ mo ≤ 12 ∧ 1 ≤ d ∧ d ≤ daysInMonth y mo) then
      Option.none
    else
      match cs₅ with
      | [] => some ⟨daysFromCivil y mo d * 86400000000, Option.none⟩
      | sep :: rest =>
        if sep = 'T' ∨ sep = ' ' then
          match parseTime rest with
          | Option.none => Option.none
          | some (dayUs, cs₆) =>
            match parseOffset cs₆ with
            | Option.none => Option.none
            | some (off, cs₇) =>
                match cs₇ with
                | [] =>
                    some ⟨daysFromCivil y mo d * 86400000000 + dayUs, off⟩
                | _ :: _ => Option.none
        else Option.none

/-- String-level `fromisoformat`. -/
def fromiso (s : String) : Option PyDatetime :=
  fromisoChars s.toList

/-- The idiom `datetime.fromisoformat(s.replace("Z", "+00:00"))`, raising
`ValueError` on failure. -/
def parseDT (s : String) : Except PyExc PyDatetime :=
  match fromisoChars (replaceZ s.toList) with
  | some dt => .ok dt
  | Option.none => .error .valueError

/-- Python subtraction of two datetimes in microseconds: defined within a
single frame, raises `TypeError` when a naive and an aware datetime are
mixed. -/
def pySub (a b : PyDatetime) : Except PyExc Int :=
  match a.offS, b.offS with
  | Option.none, Option.none => .ok (a.wallUs - b.wallUs)
  | some oa, some ob => .ok (a.epochUs oa - b.epochUs ob)
  | _, _ => .error .typeError


/-- Option-of-string to Python value (`str | None`). -/
def optToPy : Option String → PyVal
  | some s => .str s
  | Option.none => .none

/-- sensor.py `SLDeparturesSensor._calculate_delay_minutes`: absent on a
falsy scheduled or expected field; parse both timestamps after replacing
`Z`; `int(delta.total_seconds() / 60)` truncates toward zero; a
`ValueError` (bad timestamp) or `TypeError` (naive mixed with aware) is
caught and degrades to absent, while an `AttributeError` (non-string
field) escapes, and a non-dict record raises on `.get`. -/
def _calculate_delay_minutes (dep : PyVal) : Except PyExc (Option Int) := do
  let sv ← dictGetD dep "scheduled" .none
  let ev ← dictGetD dep "expected" .none
  if !pyTruthy sv || !pyTruthy ev then pure Option.none
  else
    catchVT (do
      let ss ← asStr sv
      let es ← asStr ev
      let sdt ← parseDT ss
      let edt ← parseDT es
      let us ← pySub edt sdt
      pure (some (us.tdiv 60000000))) Option.none

/-- sensor.py `SLDeparturesSensor._calculate_minutes_until`: 0 on a falsy
expected value; otherwise parse it and subtract `datetime.now(timezone.utc)`
(an aware instant at `nowUs`); `max(0, int(...))`; `ValueError` and
`TypeError` degrade to 0. -/
def _calculate_minutes_until (ev : PyVal) (nowUs : Int) : Except PyExc Int :=
  if !pyTruthy ev then .ok 0
  else
    catchVT (do
      let s ← asStr ev
      let dt ← parseDT s
      let us ← pySub dt ⟨nowUs, some 0⟩
      pure (max 0 (us.tdiv 60000000))) 0

/-- Two-digit zero-padded decimal. -/
def pad2 (n : Nat) : String :=
  if n < 10 then "0" ++ toString n else toString n

/-- `strftime("%H:%M")` of a wall-clock reading in microseconds. -/
def fmtHM (wallUs : Int) : String :=
  let secOfDay := ((wallUs.fdiv 1000000).emod 86400).toNat
  pad2 (secOfDay / 3600) ++ ":" ++ pad2 (secOfDay % 3600 / 60)

/-- sensor.py `SLDeparturesSensor._format_time`: absent on falsy input;
`astimezone()` converts an aware datetime to the local zone (offset
`localOffS` seconds) and interprets a naive one as already local (wall
clock preserved); then format `HH:MM`. -/
def _format_time (tv : PyVal) (localOffS : Int) : Except PyExc (Option String) :=
  if !pyTruthy tv then .ok Option.none
  else
    catchVT (do
      let s ← asStr tv
      let dt ← parseDT s
      let localWall :=
        match dt.offS with
        | some o => dt.epochUs o + localOffS * 1000000
        | Option.none => dt.wallUs
      pure (some (fmtHM localWall))) Option.none

/-- A Python list comprehension `[d for d in ds if p(d)]`, evaluating the
predicate left to right and propagating its first exception. -/
def filterE (p : PyVal → Except PyExc Bool) : List PyVal → Except PyExc (List PyVal)
  | [] => .ok []
  | d :: ds => do
      let b ← p d
      let rest ← filterE p ds
      pure (if b then d :: rest else rest)

/-- Pass 1 predicate of `_async_update_data`:
`dep.get("line", {}).get("transport_mode") in self.transport_modes`. -/
def modePred (modes : List String) (dep : PyVal) : Except PyExc Bool := do
  let lineObj ← dictGetD dep "line" (.dict [])
  let m ← dictGetD lineObj "transport_mode" .none
  pure (pyInStrList m modes)

/-- Pass 2 predicate:
`str(dep.get("direction_code")) == self.direction_code`. -/
def dirPred (dc : String) (dep : PyVal) : Except PyExc Bool := do
  let v ← dictGetD dep "direction_code" .none
  pure (pyStr v = dc)

/-- `[ln.strip() for ln in self.line_filter.split(",")]`. -/
def lineNumbersOf (lf : String) : List String :=
  (splitOnComma lf.toList).map fun g => String.mk (trimChars g)

/-- Pass 3 predicate:
`dep.get("line", {}).get("designation") in line_numbers`. -/
def linePred (lineNumbers : List String) (dep : PyVal) : Except PyExc Bool := do
  let lineObj ← dictGetD dep "line" (.dict [])
  let d ← dictGetD lineObj "designation" .none
  pure (pyInStrList d lineNumbers)

/-- The filtering portion of
`SLDeparturesCoordinator._async_update_data` (__init__.py lines
124-157): mode pass, then direction pass when `direction_code` is
truthy, then line pass when `line_filter` is truthy. -/
def filterDeps (modes : List String) (dc lf : String) (deps : List PyVal) :
    Except PyExc (List PyVal) := do
  let pass1 ← filterE (modePred modes) deps
  let pass2 ← if dc = "" then pure pass1 else filterE (dirPred dc) pass1
  if lf = "" then pure pass2 else filterE (linePred (lineNumbersOf lf)) pass2

/-- Outcome of one `session.get` fetch, as classified by the upstream
client: transport failure, non-2xx status (raised by
`response.raise_for_status()` as a `ClientError` subclass), a body that
is not valid JSON (`response.json()` raises a `ValueError`-family
decode error), or a decoded JSON body. -/
inductive FetchOutcome where
  | transportError
  | httpError (status : Nat)
  | badJson
  | okBody (data : PyVal)

/-- What escapes `_async_update_data`: the `UpdateFailed` raised for an
`aiohttp.ClientError`, or any other (unclassified) Python exception. -/
inductive UpdateError where
  | updateFailed
  | unclassified (e : PyExc)

/-- __init__.py `SLDeparturesCoordinator._async_update_data`: network and
HTTP-status errors are caught and re-raised as `UpdateFailed`; a JSON
decode error is a `ValueError` and is not caught by
`except aiohttp.ClientError`, escaping unclassified; on a decoded body,
`data.get("departures", [])` then the three filter passes. -/
def _async_update_data (modes : List String) (dc lf : String) (o : FetchOutcome) :
    Except UpdateError (List PyVal) :=
  match o with
  | .transportError => .error .updateFailed
  | .httpError _ => .error .updateFailed
  | .badJson => .error (.unclassified .valueError)
  | .okBody data =>
      match (do
        let departures ← dictGetD data "departures" (.list [])
        let items ← pyIter departures
        filterDeps modes dc lf items : Except PyExc (List PyVal)) with
      | .ok out => .ok out
      | .error e => .error (.unclassified e)

/-- Published coordinator state: the last successful snapshot, the last
recorded refresh error, and whether the polling loop is running. -/
structure CoordState where
  data : Option (List PyVal)
  lastError : Option UpdateError
  running : Bool

/-- Modelled from the spec: the steady-state refresh step of the
RefreshScheduler (§4.4).  The loop body that reacts to the result of
`_async_update_data` lives in Home Assistant's `DataUpdateCoordinator`,
not in this repository's sources: per the spec, a successful fetch
atomically replaces the snapshot and clears the recorded error, and a
failed fetch retains the previous snapshot unchanged, records the
failure, and leaves the loop running. -/
def refreshStep (modes : List String) (dc lf : String) (st : CoordState)
    (o : FetchOutcome) : CoordState :=
  match _async_update_data modes dc lf o with
  | .ok out => { data := some out, lastError := Option.none, running := st.running }
  | .error e => { data := st.data, lastError := some e, running := st.running }

/-- Inputs a slot sensor reads: `coordinator.last_update_success` (the
`CoordinatorEntity.available` base), `coordinator.data`, and the slot
index fixed at setup. -/
structure SensorCtx where
  lastUpdateSuccess : Bool
  data : Option (List PyVal)
  index : Nat

/-- sensor.py `SLDeparturesSensor._departure`:
`if not self.coordinator.data or len(self.coordinator.data) <= self._index:
return None`, else the record at the slot index (`None` data and an empty
list are both falsy). -/
def _departure (ctx : SensorCtx) : Option PyVal :=
  match ctx.data with
  | Option.none => Option.none
  | some l =>
      if l.isEmpty ∨ l.length ≤ ctx.index then Option.none
      else l.get? ctx.index

/-- sensor.py `SLDeparturesSensor.available`:
`super().available and self._departure is not None`. -/
def available (ctx : SensorCtx) : Bool :=
  ctx.lastUpdateSuccess && (_departure ctx).isSome

/-- sensor.py `SLDeparturesSensor.native_value`: `None` without a
departure (a falsy record included), else `dep.get("display")`. -/
def native_value (ctx : SensorCtx) : Except PyExc PyVal :=
  match _departure ctx with
  | Option.none => .ok .none
  | some dep =>
      if !pyTruthy dep then .ok .none
      else dictGetD dep "display" .none

/-- The comprehension
`[d.get("message") for d in deviations if d.get("message")]`. -/
def collectMsgs : List PyVal → Except PyExc (List PyVal)
  | [] => .ok []
  | d :: ds => do
      let m ← dictGetD d "message" .none
      let rest ← collectMsgs ds
      pure (if pyTruthy m then m :: rest else rest)

/-- sensor.py `SLDeparturesSensor.extra_state_attributes`, with the
fallible field reads in source order; `now` is the aware UTC instant and
`localOffS` the display-zone offset used by `astimezone()`. -/
def extra_state_attributes (nowUs localOffS : Int) (ctx : SensorCtx) :
    Except PyExc (List (String × PyVal)) :=
  match _departure ctx with
  | Option.none => .ok []
  | some dep =>
    if !pyTruthy dep then .ok []
    else do
      let scheduled ← dictGetD dep "scheduled" .none
      let expected ← dictGetD dep "expected" .none
      let delayMin ← _calculate_delay_minutes dep
      let minUntil ← _calculate_minutes_until expected nowUs
      let timeFormatted ← _format_time expected localOffS
      let lineObj ← dictGetD dep "line" (.dict [])
      let lineDesig ← dictGetD lineObj "designation" .none
      let dest ← dictGetD dep "destination" .none
      let tmode ← dictGetD lineObj "transport_mode" .none
      let journey ← dictGetD dep "journey" (.dict [])
      let predState ← dictGetD journey "prediction_state" .none
      let stateV ← dictGetD dep "state" .none
      let stopPoint ← dictGetD dep "stop_point" (.dict [])
      let platform ← dictGetD stopPoint "designation" .none
      let dirV ← dictGetD dep "direction" .none
      let stopArea ← dictGetD dep "stop_area" (.dict [])
      let stopAreaName ← dictGetD stopArea "name" .none
      let attrs := [
        ("line", lineDesig),
        ("destination", dest),
        ("scheduled_time", scheduled),
        ("expected_time", expected),
        ("time_formatted", optToPy timeFormatted),
        ("minutes_until", PyVal.int minUntil),
        ("transport_mode", tmode),
        ("real_time", PyVal.bool (pyEqStr predState "NORMAL")),
        ("delay_minutes", PyVal.int (delayMin.getD 0)),
        ("canceled", PyVal.bool (pyEqStr stateV "CANCELLED")),
        ("platform", platform),
        ("agency", PyVal.str "SL"),
        ("direction", dirV),
        ("state", stateV),
        ("stop_area", stopAreaName)]
      let deviations ← dictGetD dep "deviations" (.list [])
      if pyTruthy deviations then do
        let items ← pyIter deviations
        let messages ← collectMsgs items
        if !messages.isEmpty then
          pure (attrs ++ [("deviations", PyVal.list messages)])
        else pure attrs
      else pure attrs

/-- Field of a record as the code reads it: `dep.get(k)` on a dict,
`None` otherwise (used only to state properties of records the code
accepts). -/
def getField (dep : PyVal) (k : String) : PyVal :=
  match dep with
  | .dict kvs => alookupD kvs k .none
  | _ => .none

/-- Nested field `dep.get(k₁, {}).get(k₂)` for a record whose `k₁` field
is a dict or absent. -/
def getField2 (dep : PyVal) (k₁ k₂ : String) : PyVal :=
  match dep with
  | .dict kvs =>
      match alookupD kvs k₁ (.dict []) with
      | .dict kvs₂ => alookupD kvs₂ k₂ .none
      | _ => .none
  | _ => .none

/-- A timestamp field in the documented domain: a string or a falsy
value (absent, `None`, empty string); anything else would make the
sensor's `.replace` call raise `AttributeError`. -/
def strOrFalsy : PyVal → Bool
  | .str _ => true
  | .none => true
  | .int n => n = 0
  | .bool b => !b
  | .list xs => xs.isEmpty
  | .dict kvs => kvs.isEmpty

/-- Pure counterpart of `_calculate_delay_minutes` on the two timestamp
values (agreeing with the code on the documented `str | None` domain):
absent on a falsy input, a failed parse, or a naive/aware mix; otherwise
`(expected - scheduled)` microseconds divided by 60000000, truncated
toward zero. -/
def pureDelayV (sv ev : PyVal) : Option Int :=
  if !pyTruthy sv || !pyTruthy ev then Option.none
  else
    match sv, ev with
    | .str ss, .str es =>
      match fromisoChars (replaceZ ss.toList), fromisoChars (replaceZ es.toList) with
      | some sdt, some edt =>
        match edt.offS, sdt.offS with
        | Option.none, Option.none =>
            some ((edt.wallUs - sdt.wallUs).tdiv 60000000)
        | some oe, some os =>
            some ((edt.epochUs oe - sdt.epochUs os).tdiv 60000000)
        | _, _ => Option.none
      | _, _ => Option.none
    | _, _ => Option.none

/-- Pure counterpart of `_calculate_minutes_until`: 0 on a falsy input, a
failed parse, or a naive timestamp (whose subtraction from the aware
`now` raises `TypeError`); otherwise `max 0` of the truncated minute
difference of instants. -/
def pureMinutesV (ev : PyVal) (nowUs : Int) : Int :=
  if !pyTruthy ev then 0
  else
    match ev with
    | .str s =>
      match fromisoChars (replaceZ s.toList) with
      | some dt =>
        match dt.offS with
        | some o => max 0 ((dt.epochUs o - nowUs).tdiv 60000000)
        | Option.none => 0
      | Option.none => 0
    | _ => 0

/-- Pure counterpart of `_format_time`: absent on a falsy input or a
failed parse; an aware timestamp is shifted to the display zone, a naive
one keeps its wall clock. -/
def pureFmtV (tv : PyVal) (localOffS : Int) : Option String :=
  if !pyTruthy tv then Option.none
  else
    match tv with
    | .str s =>
      match fromisoChars (replaceZ s.toList) with
      | some dt =>
          some (fmtHM (match dt.offS with
            | some o => dt.epochUs o + localOffS * 1000000
            | Option.none => dt.wallUs))
      | Option.none => Option.none
    | _ => Option.none

/-- The sensor's timestamp helpers on their documented input domain
(`str | None`), as named by the spec: `delayMinutes`. -/
def delayMinutes (scheduled expected : Option String) : Except PyExc (Option Int) :=
  _calculate_delay_minutes
    (.dict [("scheduled", optToPy scheduled), ("expected", optToPy expected)])

/-- Spec name `minutesUntil` over the documented domain. -/
def minutesUntil (expected : Option String) (nowUs : Int) : Except PyExc Int :=
  _calculate_minutes_until (optToPy expected) nowUs

/-- Spec name `formatClock` over the documented domain. -/
def formatClock (t : Option String) (localOffS : Int) : Except PyExc (Option String) :=
  _format_time (optToPy t) localOffS

/-- Key `k₁` of the record is either absent or a dict, so that
`dep.get(k₁, {}).get(...)` cannot raise. -/
def fieldDictOrAbsent (kvs : List (String × PyVal)) (k : String) : Bool :=
  match alookup kvs k with
  | Option.none => true
  | some (.dict _) => true
  | some _ => false

/-- The `deviations` field is iterable as a list of dicts, or falsy (in
which case the code skips it). -/
def fieldDevOk (kvs : List (String × PyVal)) : Bool :=
  match alookupD kvs "deviations" (.list []) with
  | .list ds => ds.all fun d => match d with | .dict _ => true | _ => false
  | v => !pyTruthy v

/-- The documented RawDeparture shape, as far as
`extra_state_attributes` needs it to not raise: a dict whose nested
objects are dicts or absent, whose timestamps are strings or falsy, and
whose deviations are a list of dicts or falsy. -/
def okDep : PyVal → Bool
  | .dict kvs =>
      fieldDictOrAbsent kvs "line" && fieldDictOrAbsent kvs "journey" &&
      fieldDictOrAbsent kvs "stop_point" && fieldDictOrAbsent kvs "stop_area" &&
      strOrFalsy (alookupD kvs "scheduled" .none) &&
      strOrFalsy (alookupD kvs "expected" .none) &&
      fieldDevOk kvs
  | _ => false

/-- Pure counterpart of the message comprehension: the non-falsy
`message` values, in order. -/
def pureMsgs : List PyVal → List PyVal
  | [] => []
  | d :: ds =>
      if pyTruthy (getField d "message") then getField d "message" :: pureMsgs ds
      else pureMsgs ds

/-- Pure counterpart of the deviations suffix of the attribute dict. -/
def pureDevTail (dep : PyVal) : List (String × PyVal) :=
  match dep with
  | .dict kvs =>
    match alookupD kvs "deviations" (.list []) with
    | .list ds =>
        if ds.isEmpty then []
        else if (pureMsgs ds).isEmpty then []
        else [("deviations", .list (pureMsgs ds))]
    | _ => []
  | _ => []

/-- Pure counterpart of the full derived attribute payload the slot
sensor exposes for a well-shaped record. -/
def pureAttrs (nowUs localOffS : Int) (dep : PyVal) : List (String × PyVal) :=
  [("line", getField2 dep "line" "designation"),
   ("destination", getField dep "destination"),
   ("scheduled_time", getField dep "scheduled"),
   ("expected_time", getField dep "expected"),
   ("time_formatted", optToPy (pureFmtV (getField dep "expected") localOffS)),
   ("minutes_until", .int (pureMinutesV (getField dep "expected") nowUs)),
   ("transport_mode", getField2 dep "line" "transport_mode"),
   ("real_time", .bool (pyEqStr (getField2 dep "journey" "prediction_state") "NORMAL")),
   ("delay_minutes", .int ((pureDelayV (getField dep "scheduled") (getField dep "expected")).getD 0)),
   ("canceled", .bool (pyEqStr (getField dep "state") "CANCELLED")),
   ("platform", getField2 dep "stop_point" "designation"),
   ("agency", .str "SL"),
   ("direction", getField dep "direction"),
   ("state", getField dep "state"),
   ("stop_area", getField2 dep "stop_area" "name")] ++ pureDevTail dep

/-- Modelled from the spec: the canonical cancellation test (§4.3), the
nested journey-state field compared to the literal "CANCELLED"; the
function this names is not implemented in the repository snapshot. -/
def isCancelled (dep : PyVal) : Bool :=
  pyEqStr (getField2 dep "journey" "state") "CANCELLED"

/-- Modelled from the spec: the per-departure attribute shape of the
view variants (§4.3), with the cancelled flag from the canonical test;
the views carrying it are not implemented in the repository snapshot. -/
def specSlotAttrs (nowUs localOffS : Int) (dep : PyVal) : List (String × PyVal) :=
  [("line", getField2 dep "line" "designation"),
   ("destination", getField dep "destination"),
   ("scheduled_time", getField dep "scheduled"),
   ("expected_time", getField dep "expected"),
   ("time_formatted", optToPy (pureFmtV (getField dep "expected") localOffS)),
   ("minutes_until", .int (pureMinutesV (getField dep "expected") nowUs)),
   ("real_time", .bool (pyEqStr (getField2 dep "journey" "prediction_state") "NORMAL")),
   ("delay_minutes", .int ((pureDelayV (getField dep "scheduled") (getField dep "expected")).getD 0)),
   ("cancelled", .bool (isCancelled dep)),
   ("platform", getField2 dep "stop_point" "designation"),
   ("agency", .str "SL"),
   ("direction", getField dep "direction"),
   ("state", getField dep "state"),
   ("stop_area", getField2 dep "stop_area" "name")]

/-- Modelled from the spec: the next-active display value for a chosen
element (§4.3) — without an expected timestamp fall back to the upstream
display string, else "now" at zero minutes, a minute count under an
hour, else the formatted clock time. -/
def nextActiveDisplayOf (nowUs localOffS : Int) (dep : PyVal) : PyVal :=
  if !pyTruthy (getField dep "expected") then getField dep "display"
  else
    let m := pureMinutesV (getField dep "expected") nowUs
    if m = 0 then .str "now"
    else if m < 60 then .str (toString m ++ " min")
    else optToPy (pureFmtV (getField dep "expected") localOffS)

/-- Modelled from the spec: display value of the next-active view (§4.3)
— scan the filtered list in order for the first element failing the
canonical cancellation test; absent when every element is cancelled. -/
def nextActiveDisplay (nowUs localOffS : Int) (L : List PyVal) : PyVal :=
  match L.find? (fun d => !isCancelled d) with
  | some d => nextActiveDisplayOf nowUs localOffS d
  | Option.none => .none

/-- Modelled from the spec: the `upcoming` attribute payload of the
next-active view — every element of the filtered list, in order, in the
shared attribute shape. -/
def nextActiveUpcoming (nowUs localOffS : Int) (L : List PyVal) :
    List (List (String × PyVal)) :=
  L.map (specSlotAttrs nowUs localOffS)

/-- Reading of the spec sentence under test in C5 (written from the
spec, for comparison with the code): a naive expected timestamp is
compared against a local-clock now, a zone-aware one against a UTC now.
-/
def minutesUntilSpec (expected : Option String) (localNowUs utcNowUs : Int) : Int :=
  match expected with
  | Option.none => 0
  | some s =>
    match fromisoChars (replaceZ s.data) with
    | Option.none => 0
    | some dt =>
      match dt.offS with
      | Option.none => max 0 ((dt.wallUs - localNowUs).fdiv 60000000)
      | some o => max 0 ((dt.epochUs o - utcNowUs).fdiv 60000000)

/-- Negate the value inside a successful optional-int result (spelling
out "the sign flips" for `delayMinutes`). -/
def excNegOpt (x : Except PyExc (Option Int)) : Except PyExc (Option Int) :=
  match x with
  | .ok o => .ok (o.map fun v : Int => -v)
  | .error e => .error e

/-- A TRAIN departure with no direction code, for exercising the
direction pass. -/
def depNoDirection : PyVal :=
  .dict [("line", .dict [("transport_mode", .str "TRAIN")])]

/-- TRAIN departures on lines 19, 19S and 19A. -/
def depLine19 : PyVal :=
  .dict [("line", .dict [("transport_mode", .str "TRAIN"), ("designation", .str "19")])]

/-- Companion record for line 19S. -/
def depLine19S : PyVal :=
  .dict [("line", .dict [("transport_mode", .str "TRAIN"), ("designation", .str "19S")])]

/-- Companion record for line 19A. -/
def depLine19A : PyVal :=
  .dict [("line", .dict [("transport_mode", .str "TRAIN"), ("designation", .str "19A")])]

/-- A departure whose nested journey state says cancelled. -/
def depJourneyCancelled : PyVal :=
  .dict [("journey", .dict [("state", .str "CANCELLED")]), ("display", .str "10:10")]

/-- A plain active departure with an upstream display string. -/
def depActive : PyVal :=
  .dict [("display", .str "10:05")]

theorem max0_tdiv_eq_max0_fdiv (x : Int) :
    max 0 (x.tdiv 60000000) = max 0 (x.fdiv 60000000) := by
  rcases x with m | m
  · rcases m with _ | m <;> simp [Int.tdiv, Int.fdiv]
  · have h1 : (Int.negSucc m).tdiv 60000000 ≤ 0 := by simp [Int.tdiv]; omega
    have h2 : (Int.negSucc m).fdiv 60000000 ≤ 0 := by
      simp [Int.fdiv]
      exact (Int.negSucc_lt_zero _).le
    omega

theorem tdiv_60000000_nonpos (x : Int) (h : x ≤ 0) : x.tdiv 60000000 ≤ 0 := by
  rcases x with m | m
  · rcases m with _ | m
    · simp [Int.tdiv]
    · simp only [Int.ofNat_eq_coe] at h; omega
  · simp [Int.tdiv]; omega

theorem strOrFalsy_truthy (v : PyVal) (h : strOrFalsy v = true)
    (ht : pyTruthy v = true) : ∃ s, v = .str s ∧ s ≠ "" := by
  cases v <;> simp_all [strOrFalsy, pyTruthy]

theorem minutes_ok (ev : PyVal) (nowUs : Int) (h : strOrFalsy ev = true) :
    _calculate_minutes_until ev nowUs = .ok (pureMinutesV ev nowUs) := by
  by_cases ht : pyTruthy ev = true
  · obtain ⟨s, rfl, hs⟩ := strOrFalsy_truthy ev h ht
    simp only [_calculate_minutes_until, pureMinutesV, ht, Bool.not_true,
      Bool.false_eq_true, if_false, asStr, parseDT]
    cases hp : fromisoChars (replaceZ s.data) with
    | none => simp [catchVT, Bind.bind, Except.bind, hp]
    | some dt =>
      cases ho : dt.offS with
      | none => simp [catchVT, Bind.bind, Except.bind, pySub, hp, ho]
      | some o =>
        simp [catchVT, Bind.bind, Except.bind, pySub, hp, ho, PyDatetime.epochUs,
          pure, Except.pure]
  · have ht' : pyTruthy ev = false := by
      cases hb : pyTruthy ev
      · rfl
      · exact absurd hb ht
    simp [_calculate_minutes_until, pureMinutesV, ht']

theorem fmt_ok (tv : PyVal) (localOffS : Int) (h : strOrFalsy tv = true) :
    _format_time tv localOffS = .ok (pureFmtV tv localOffS) := by
  by_cases ht : pyTruthy tv = true
  · obtain ⟨s, rfl, hs⟩ := strOrFalsy_truthy tv h ht
    simp only [_format_time, pureFmtV, ht, Bool.not_true, Bool.false_eq_true,
      if_false, asStr, parseDT]
    cases hp : fromisoChars (replaceZ s.data) with
    | none => simp [catchVT, Bind.bind, Except.bind, hp]
    | some dt =>
      cases ho : dt.offS with
      | none => simp [catchVT, Bind.bind, Except.bind, hp, ho, pure, Except.pure]
      | some o => simp [catchVT, Bind.bind, Except.bind, hp, ho, pure, Except.pure]
  · simp at ht
    simp [_format_time, pureFmtV, ht]

theorem delay_kvs_ok (kvs : List (String × PyVal))
    (hs : strOrFalsy (alookupD kvs "scheduled" .none) = true)
    (he : strOrFalsy (alookupD kvs "expected" .none) = true) :
    _calculate_delay_minutes (.dict kvs) =
      .ok (pureDelayV (alookupD kvs "scheduled" .none) (alookupD kvs "expected" .none)) := by
  by_cases hts : pyTruthy (alookupD kvs "scheduled" .none) = true
  · by_cases hte : pyTruthy (alookupD kvs "expected" .none) = true
    · obtain ⟨ss, hss, _⟩ := strOrFalsy_truthy _ hs hts
      obtain ⟨es, hes, _⟩ := strOrFalsy_truthy _ he hte
      rw [hss] at hts
      rw [hes] at hte
      simp only [_calculate_delay_minutes, pureDelayV, dictGetD, Bind.bind,
        Except.bind, hss, hes, hts, hte, Bool.not_true, Bool.or_self,
        Bool.false_eq_true, if_false, asStr, parseDT]
      cases hp1 : fromisoChars (replaceZ ss.data) with
      | none => simp [catchVT, Bind.bind, Except.bind, hp1]
      | some sdt =>
        cases hp2 : fromisoChars (replaceZ es.data) with
        | none => simp [catchVT, Bind.bind, Except.bind, hp1, hp2]
        | some edt =>
          cases ho1 : sdt.offS with
          | none =>
            cases ho2 : edt.offS with
            | none =>
                simp [catchVT, Bind.bind, Except.bind, hp1, hp2, pySub, ho1, ho2,
                  pure, Except.pure]
            | some oe =>
                simp [catchVT, Bind.bind, Except.bind, hp1, hp2, pySub, ho1, ho2]
          | some os =>
            cases ho2 : edt.offS with
            | none =>
                simp [catchVT, Bind.bind, Except.bind, hp1, hp2, pySub, ho1, ho2]
            | some oe =>
                simp [catchVT, Bind.bind, Except.bind, hp1, hp2, pySub, ho1, ho2,
                  pure, Except.pure]
    · simp at hte
      simp [_calculate_delay_minutes, pureDelayV, dictGetD, Bind.bind,
        Except.bind, hte, pure, Except.pure]
  · simp at hts
    simp [_calculate_delay_minutes, pureDelayV, dictGetD, Bind.bind,
      Except.bind, hts, pure, Except.pure]

theorem strOrFalsy_optToPy (x : Option String) : strOrFalsy (optToPy x) = true := by
  cases x <;> rfl

theorem delayMinutes_eq_pure (s e : Option String) :
    delayMinutes s e = .ok (pureDelayV (optToPy s) (optToPy e)) := by
  have h := delay_kvs_ok [("scheduled", optToPy s), ("expected", optToPy e)]
  simp only [alookupD, alookup] at h
  simp only [delayMinutes]
  have hs := strOrFalsy_optToPy s
  have he := strOrFalsy_optToPy e
  simp only [alookupD, alookup] at *
  exact h (by simpa using hs) (by simpa using he)

theorem minutesUntil_eq_pure (e : Option String) (nowUs : Int) :
    minutesUntil e nowUs = .ok (pureMinutesV (optToPy e) nowUs) :=
  minutes_ok (optToPy e) nowUs (strOrFalsy_optToPy e)

theorem formatClock_eq_pure (t : Option String) (localOffS : Int) :
    formatClock t localOffS = .ok (pureFmtV (optToPy t) localOffS) :=
  fmt_ok (optToPy t) localOffS (strOrFalsy_optToPy t)

theorem pureDelayV_antisymm (sv ev : PyVal) :
    pureDelayV ev sv = (pureDelayV sv ev).map (fun x : Int => -x) := by
  by_cases hts : pyTruthy sv = true
  · by_cases hte : pyTruthy ev = true
    · cases sv <;> cases ev <;>
        first
        | (simp_all [pureDelayV, pyTruthy]; done)
        | skip
      rename_i ss es
      simp only [pureDelayV, hts, hte, Bool.not_true, Bool.or_self,
        Bool.false_eq_true, if_false]
      cases hp1 : fromisoChars (replaceZ ss.data) with
      | none => cases hp2 : fromisoChars (replaceZ es.data) <;> simp [hp1, hp2]
      | some sdt =>
        cases hp2 : fromisoChars (replaceZ es.data) with
        | none => simp [hp1, hp2]
        | some edt =>
          cases ho1 : sdt.offS <;> cases ho2 : edt.offS <;>
            simp [hp1, hp2, ho1, ho2, PyDatetime.epochUs, ← Int.neg_tdiv, neg_sub]
    · simp at hte
      simp [pureDelayV, hte]
  · simp at hts
    simp [pureDelayV, hts]

/-- A record shape on which the filter cannot raise: a dict whose `line`
field, when present, is a dict. -/
def okFilterRec : PyVal → Bool
  | .dict kvs => fieldDictOrAbsent kvs "line"
  | _ => false

/-- Pure mode-pass test for a well-shaped record. -/
def pureModeTest (modes : List String) (d : PyVal) : Bool :=
  pyInStrList (getField2 d "line" "transport_mode") modes

/-- Pure direction-pass test: trivially true for an empty filter, else
the `str()`-coerced direction code compared to it. -/
def pureDirTest (dc : String) (d : PyVal) : Bool :=
  dc = "" || decide (pyStr (getField d "direction_code") = dc)

/-- Pure line-pass test: trivially true for an empty filter, else
membership of the designation in the trimmed comma-split list. -/
def pureLineTest (lf : String) (d : PyVal) : Bool :=
  lf = "" || pyInStrList (getField2 d "line" "designation") (lineNumbersOf lf)

theorem filterE_sublist (p : PyVal → Except PyExc Bool) :
    ∀ (ds out : List PyVal), filterE p ds = .ok out → out.Sublist ds := by
  intro ds
  induction ds with
  | nil =>
    intro out h
    simp [filterE] at h
    simp [← h]
  | cons d ds ih =>
    intro out h
    simp only [filterE, Bind.bind, Except.bind] at h
    cases hp : p d with
    | error e => rw [hp] at h; simp at h
    | ok b =>
      rw [hp] at h
      cases hr : filterE p ds with
      | error e => rw [hr] at h; simp at h
      | ok rest =>
        rw [hr] at h
        simp only [pure, Except.pure, Except.ok.injEq] at h
        cases b with
        | true => simp at h; rw [← h]; exact List.Sublist.cons₂ d (ih rest hr)
        | false => simp at h; rw [← h]; exact List.Sublist.cons d (ih rest hr)

theorem filterE_eq_filter (p : PyVal → Except PyExc Bool) (q : PyVal → Bool) :
    ∀ ds : List PyVal, (∀ d ∈ ds, p d = .ok (q d)) →
      filterE p ds = .ok (ds.filter q) := by
  intro ds
  induction ds with
  | nil => intro _; simp [filterE]
  | cons d ds ih =>
    intro h
    have hd := h d (by simp)
    have hrest : ∀ x ∈ ds, p x = .ok (q x) := fun x hx => h x (by simp [hx])
    simp only [filterE, Bind.bind, Except.bind, hd, ih hrest, List.filter_cons]
    cases hq : q d <;> simp [pure, Except.pure, hq]

theorem modePred_pure (modes : List String) (d : PyVal) (h : okFilterRec d = true) :
    modePred modes d = .ok (pureModeTest modes d) := by
  cases d with
  | dict kvs =>
    simp only [okFilterRec, fieldDictOrAbsent] at h
    cases hl : alookup kvs "line" with
    | none =>
        simp [modePred, dictGetD, Bind.bind, Except.bind, pureModeTest, getField2,
          alookupD, hl, pure, Except.pure]
    | some v =>
      cases v <;> rw [hl] at h <;> simp at h
      rename_i lkvs
      simp [modePred, dictGetD, Bind.bind, Except.bind, pureModeTest, getField2,
        alookupD, hl, pure, Except.pure]
  | none => simp [okFilterRec] at h
  | str s => simp [okFilterRec] at h
  | int n => simp [okFilterRec] at h
  | bool b => simp [okFilterRec] at h
  | list xs => simp [okFilterRec] at h

theorem dirPred_pure (dc : String) (kvs : List (String × PyVal)) :
    dirPred dc (.dict kvs) =
      .ok (decide (pyStr (alookupD kvs "direction_code" .none) = dc)) := by
  simp [dirPred, dictGetD, Bind.bind, Except.bind, pure, Except.pure]

theorem linePred_pure (lns : List String) (d : PyVal) (h : okFilterRec d = true) :
    linePred lns d = .ok (pyInStrList (getField2 d "line" "designation") lns) := by
  cases d with
  | dict kvs =>
    simp only [okFilterRec, fieldDictOrAbsent] at h
    cases hl : alookup kvs "line" with
    | none =>
        simp [linePred, dictGetD, Bind.bind, Except.bind, getField2,
          alookupD, hl, pure, Except.pure]
    | some v =>
      cases v <;> rw [hl] at h <;> simp at h
      rename_i lkvs
      simp [linePred, dictGetD, Bind.bind, Except.bind, getField2,
        alookupD, hl, pure, Except.pure]
  | none => simp [okFilterRec] at h
  | str s => simp [okFilterRec] at h
  | int n => simp [okFilterRec] at h
  | bool b => simp [okFilterRec] at h
  | list xs => simp [okFilterRec] at h

theorem filterDeps_sublist (modes : List String) (dc lf : String)
    (deps out : List PyVal) (hok : filterDeps modes dc lf deps = .ok out) :
    out.Sublist deps := by
  simp only [filterDeps, Bind.bind, Except.bind] at hok
  cases h1 : filterE (modePred modes) deps with
  | error e => rw [h1] at hok; simp at hok
  | ok p1 =>
    rw [h1] at hok
    have s1 := filterE_sublist _ deps p1 h1
    by_cases hdc : dc = ""
    · simp only [hdc, if_true, pure, Except.pure] at hok
      by_cases hlf : lf = ""
      · simp only [hlf, if_true, pure, Except.pure, Except.ok.injEq] at hok
        rw [← hok]; exact s1
      · simp only [hlf, if_false] at hok
        exact (filterE_sublist _ p1 out hok).trans s1
    · simp only [hdc, if_false] at hok
      cases h2 : filterE (dirPred dc) p1 with
      | error e => rw [h2] at hok; simp at hok
      | ok p2 =>
        rw [h2] at hok
        have s2 := filterE_sublist _ p1 p2 h2
        by_cases hlf : lf = ""
        · simp only [hlf, if_true, pure, Except.pure, Except.ok.injEq] at hok
          rw [← hok]; exact s2.trans s1
        · simp only [hlf, if_false] at hok
          exact ((filterE_sublist _ p2 out hok).trans s2).trans s1

theorem except_bind_ok {α β : Type} (x : Except PyExc α) (v : α)
    (k : α → Except PyExc β) (h : x = .ok v) : Except.bind x k = k v := by
  rw [h]
  rfl

theorem filterDeps_pure (modes : List String) (dc lf : String) (deps : List PyVal)
    (h : ∀ d ∈ deps, okFilterRec d = true) :
    filterDeps modes dc lf deps =
      .ok (((deps.filter (pureModeTest modes)).filter
        (pureDirTest dc)).filter (pureLineTest lf)) := by
  have h1 : filterE (modePred modes) deps = .ok (deps.filter (pureModeTest modes)) :=
    filterE_eq_filter _ _ deps fun d hd => modePred_pure modes d (h d hd)
  have hmem1 : ∀ d ∈ deps.filter (pureModeTest modes), okFilterRec d = true :=
    fun d hd => h d (List.mem_of_mem_filter hd)
  have h2 : (if dc = "" then (pure (deps.filter (pureModeTest modes)) : Except PyExc _)
      else filterE (dirPred dc) (deps.filter (pureModeTest modes))) =
      .ok ((deps.filter (pureModeTest modes)).filter (pureDirTest dc)) := by
    by_cases hdc : dc = ""
    · subst hdc
      have he : (deps.filter (pureModeTest modes)).filter (pureDirTest "") =
          deps.filter (pureModeTest modes) :=
        List.filter_eq_self.mpr fun d _ => by simp [pureDirTest]
      rw [if_pos rfl, he]
      rfl
    · have hq : ∀ d ∈ deps.filter (pureModeTest modes),
          dirPred dc d = .ok (pureDirTest dc d) := by
        intro d hd
        have hok := hmem1 d hd
        cases d with
        | dict kvs =>
          rw [dirPred_pure]
          congr 1
          simp [pureDirTest, hdc, getField]
        | none => simp [okFilterRec] at hok
        | str s => simp [okFilterRec] at hok
        | int n => simp [okFilterRec] at hok
        | bool b => simp [okFilterRec] at hok
        | list xs => simp [okFilterRec] at hok
      simp only [hdc, if_false]
      exact filterE_eq_filter _ _ _ hq
  have hmem2 : ∀ d ∈ (deps.filter (pureModeTest modes)).filter (pureDirTest dc),
      okFilterRec d = true :=
    fun d hd => hmem1 d (List.mem_of_mem_filter hd)
  have h3 : (if lf = "" then
        (pure ((deps.filter (pureModeTest modes)).filter (pureDirTest dc)) :
          Except PyExc _)
      else filterE (linePred (lineNumbersOf lf))
        ((deps.filter (pureModeTest modes)).filter (pureDirTest dc))) =
      .ok (((deps.filter (pureModeTest modes)).filter (pureDirTest dc)).filter
        (pureLineTest lf)) := by
    by_cases hlf : lf = ""
    · subst hlf
      have he : ((deps.filter (pureModeTest modes)).filter (pureDirTest dc)).filter
          (pureLineTest "") =
          (deps.filter (pureModeTest modes)).filter (pureDirTest dc) :=
        List.filter_eq_self.mpr fun d _ => by simp [pureLineTest]
      rw [if_pos rfl, he]
      rfl
    · have hq : ∀ d ∈ (deps.filter (pureModeTest modes)).filter (pureDirTest dc),
          linePred (lineNumbersOf lf) d = .ok (pureLineTest lf d) := by
        intro d hd
        rw [linePred_pure (lineNumbersOf lf) d (hmem2 d hd)]
        congr 1
        simp [pureLineTest, hlf]
      simp only [hlf, if_false]
      exact filterE_eq_filter _ _ _ hq
  unfold filterDeps
  simp only [Bind.bind]
  rw [except_bind_ok _ _ _ h1]
  by_cases hdc : dc = ""
  · simp only [if_pos hdc] at h2 ⊢
    rw [except_bind_ok _ _ _ h2]
    exact h3
  · simp only [if_neg hdc] at h2 ⊢
    rw [except_bind_ok _ _ _ h2]
    exact h3

theorem fieldDictOrAbsent_elim (kvs : List (String × PyVal)) (k : String)
    (h : fieldDictOrAbsent kvs k = true) :
    ∃ sub, alookupD kvs k (.dict []) = .dict sub := by
  unfold fieldDictOrAbsent at h
  unfold alookupD
  cases hl : alookup kvs k with
  | none => exact ⟨[], rfl⟩
  | some v =>
    rw [hl] at h
    cases v <;> simp at h
    rename_i sub
    exact ⟨sub, rfl⟩

theorem collectMsgs_ok (ds : List PyVal)
    (h : ∀ d ∈ ds, ∃ kv, d = PyVal.dict kv) :
    collectMsgs ds = .ok (pureMsgs ds) := by
  induction ds with
  | nil => rfl
  | cons d ds ih =>
    obtain ⟨kv, rfl⟩ := h d (by simp)
    have ih2 := ih fun x hx => h x (by simp [hx])
    simp only [collectMsgs, pureMsgs, dictGetD, Bind.bind, Except.bind, ih2, getField]
    cases hq : pyTruthy (alookupD kv "message" PyVal.none) <;>
      simp [pure, Except.pure, hq]

theorem extra_ok (nowUs localOffS : Int) (ctx : SensorCtx) (kvs : List (String × PyVal))
    (hd : _departure ctx = some (.dict kvs))
    (ht : pyTruthy (PyVal.dict kvs) = true)
    (hok : okDep (.dict kvs) = true) :
    extra_state_attributes nowUs localOffS ctx =
      .ok (pureAttrs nowUs localOffS (.dict kvs)) := by
  simp only [okDep, Bool.and_eq_true] at hok
  obtain ⟨⟨⟨⟨⟨⟨hline, hjour⟩, hstop⟩, harea⟩, hsched⟩, hexp⟩, hdev⟩ := hok
  obtain ⟨lkvs, hl⟩ := fieldDictOrAbsent_elim _ _ hline
  obtain ⟨jkvs, hj⟩ := fieldDictOrAbsent_elim _ _ hjour
  obtain ⟨pkvs, hp⟩ := fieldDictOrAbsent_elim _ _ hstop
  obtain ⟨akvs, ha⟩ := fieldDictOrAbsent_elim _ _ harea
  have hdelay := delay_kvs_ok kvs hsched hexp
  have hmin := minutes_ok (alookupD kvs "expected" PyVal.none) nowUs hexp
  have hfmt := fmt_ok (alookupD kvs "expected" PyVal.none) localOffS hexp
  simp only [extra_state_attributes, hd, ht, Bool.not_true, Bool.false_eq_true,
    if_false, dictGetD, Bind.bind, Except.bind, hdelay, hmin, hfmt, hl, hj, hp, ha,
    pureAttrs, pureDevTail, getField, getField2]
  cases hdv : alookupD kvs "deviations" (.list []) with
  | list ds =>
    unfold fieldDevOk at hdev
    rw [hdv] at hdev
    have hds : ∀ d ∈ ds, ∃ kv, d = PyVal.dict kv := by
      intro d hdm
      have := (List.all_eq_true.mp hdev) d hdm
      cases d <;> simp_all
    cases hes : ds.isEmpty
    · have hne : pyTruthy (PyVal.list ds) = true := by simp [pyTruthy, hes]
      simp only [hne, if_true, pyIter, Bind.bind, Except.bind, collectMsgs_ok ds hds]
      cases hms : (pureMsgs ds).isEmpty <;>
        simp [pure, Except.pure, hms, hes]
    · have hne : pyTruthy (PyVal.list ds) = false := by simp [pyTruthy, hes]
      simp [hne, pure, Except.pure, hes]
  | none =>
    unfold fieldDevOk at hdev
    rw [hdv] at hdev
    simp [pyTruthy, pure, Except.pure]
  | str s =>
    unfold fieldDevOk at hdev
    rw [hdv] at hdev
    simp only [pyTruthy] at hdev
    simp_all [pure, Except.pure, pyTruthy]
  | int n =>
    unfold fieldDevOk at hdev
    rw [hdv] at hdev
    simp only [pyTruthy] at hdev
    simp_all [pure, Except.pure, pyTruthy]
  | bool b =>
    unfold fieldDevOk at hdev
    rw [hdv] at hdev
    simp only [pyTruthy] at hdev
    simp_all [pure, Except.pure, pyTruthy]
  | dict dkvs =>
    unfold fieldDevOk at hdev
    rw [hdv] at hdev
    simp only [pyTruthy] at hdev
    simp_all [pure, Except.pure, pyTruthy]

theorem alookup_pureAttrs_deviations (n o : Int) (dep : PyVal) :
    alookup (pureAttrs n o dep) "deviations" = alookup (pureDevTail dep) "deviations" :=
  rfl

/-- C1 counterexample: a record whose nested journey state is absent but
whose top-level state is "CANCELLED" is exposed as cancelled by
`extra_state_attributes`, although the canonical (journey-state) test is
false on it — so the cancelled flag is not computed from the nested
journey-state field. -/
theorem C1_counterexample :
    (extra_state_attributes 0 0
        ⟨true, some [PyVal.dict [("state", PyVal.str "CANCELLED"),
          ("journey", PyVal.dict [])]], 0⟩).map
      (fun a => alookup a "canceled") = .ok (some (PyVal.bool true)) ∧
    isCancelled (PyVal.dict [("state", PyVal.str "CANCELLED"),
      ("journey", PyVal.dict [])]) = false :=
  ⟨rfl, rfl⟩

/-- C1 (amended): the cancelled flag exposed in the derived attributes
equals the TOP-LEVEL lifecycle state field compared to "CANCELLED"; the
nested journey-state field is not consulted, so a record whose top-level
state is absent is not cancelled regardless of journey state. -/
theorem C1_canceled_from_top_level_state (nowUs localOffS : Int) (ctx : SensorCtx)
    (kvs : List (String × PyVal)) (hd : _departure ctx = some (.dict kvs))
    (ht : pyTruthy (PyVal.dict kvs) = true) (hok : okDep (.dict kvs) = true) :
    (extra_state_attributes nowUs localOffS ctx).map (fun a => alookup a "canceled") =
      .ok (some (PyVal.bool (pyEqStr (alookupD kvs "state" .none) "CANCELLED"))) := by
  rw [extra_ok nowUs localOffS ctx kvs hd ht hok]
  rfl

/-- C1 witness: the amended theorem applied to a concrete record whose
journey state is absent and whose top-level state is "CANCELLED". -/
theorem C1_witness :
    (extra_state_attributes 0 0
        ⟨true, some [PyVal.dict [("state", PyVal.str "CANCELLED")]], 0⟩).map
      (fun a => alookup a "canceled") = .ok (some (PyVal.bool true)) := by
  exact C1_canceled_from_top_level_state 0 0
    ⟨true, some [PyVal.dict [("state", PyVal.str "CANCELLED")]], 0⟩
    [("state", PyVal.str "CANCELLED")] rfl rfl rfl

/-- C2 counterexample: with the direction filter set to the string
"None" (non-empty, so the direction criterion is non-trivial), a record
whose direction-code sub-field is absent IS kept by the filter, because
Python's `str(None)` coercion makes the absent value compare equal — the
claim says an absent sub-field never matches a non-trivial criterion. -/
theorem C2_counterexample :
    filterDeps ["TRAIN"] "None" "" [depNoDirection] = .ok [depNoDirection] ∧
    alookup [("line", PyVal.dict [("transport_mode", PyVal.str "TRAIN")])]
      "direction_code" = Option.none ∧
    ("None" : String) ≠ "" :=
  ⟨rfl, rfl, by decide⟩

/-- C2 (amended): the filter is the three narrowing passes in order, its
output is an order-preserving (unmutated) subsequence of the input, and
on well-shaped records it keeps exactly the records passing the mode,
direction and line tests; an absent transport mode or line designation
never matches a non-trivial criterion, while an absent direction code is
coerced to the string "None" and matches a non-empty direction filter
exactly when that filter is the literal "None". -/
theorem C2_filter_three_passes (modes : List String) (dc lf : String)
    (deps out : List PyVal) (hok : filterDeps modes dc lf deps = .ok out) :
    out.Sublist deps ∧
    ((∀ d ∈ deps, okFilterRec d = true) →
      out = ((deps.filter (pureModeTest modes)).filter
        (pureDirTest dc)).filter (pureLineTest lf)) ∧
    (∀ d, getField2 d "line" "transport_mode" = .none →
      pureModeTest modes d = false) ∧
    (∀ kvs₁, alookup kvs₁ "direction_code" = Option.none → dc ≠ "" →
      (pureDirTest dc (.dict kvs₁) = true ↔ dc = "None")) ∧
    (∀ d, getField2 d "line" "designation" = .none → lf ≠ "" →
      pureLineTest lf d = false) := by
  refine ⟨filterDeps_sublist modes dc lf deps out hok, ?_, ?_, ?_, ?_⟩
  · intro hshape
    have h := filterDeps_pure modes dc lf deps hshape
    rw [hok] at h
    exact (Except.ok.injEq _ _).mp h
  · intro d hmode
    simp [pureModeTest, hmode, pyInStrList]
  · intro kvs₁ hdc hne
    simp only [pureDirTest, getField, alookupD, hdc, pyStr]
    simp [hne, eq_comm]
  · intro d hdes hne
    simp [pureLineTest, hdes, pyInStrList, hne]

/-- C2 witness: the spec scenario — line filter parsed from
`" 19, 19S "`, designations "19" and "19S" pass, "19A" is excluded, and
the output is an order-preserving subsequence of the input. -/
theorem C2_witness :
    filterDeps ["TRAIN"] "" " 19, 19S " [depLine19, depLine19S, depLine19A] =
      .ok [depLine19, depLine19S] ∧
    ([depLine19, depLine19S] : List PyVal).Sublist [depLine19, depLine19S, depLine19A] :=
  ⟨rfl, (C2_filter_three_passes ["TRAIN"] "" " 19, 19S "
    [depLine19, depLine19S, depLine19A] [depLine19, depLine19S] rfl).1⟩

/-- C3: a failed steady-state refresh — transport error, non-2xx
response, or malformed JSON body — leaves the published snapshot
unchanged, records the failure, and leaves the loop running (the
reaction of the scheduler to the classified result is modelled from the
spec, since the `DataUpdateCoordinator` loop is host-platform code). -/
theorem C3_refresh_failure_retains_snapshot (modes : List String) (dc lf : String)
    (st : CoordState) (o : FetchOutcome)
    (hfail : o = FetchOutcome.transportError ∨
      (∃ status, o = FetchOutcome.httpError status) ∨ o = FetchOutcome.badJson) :
    (refreshStep modes dc lf st o).data = st.data ∧
    (refreshStep modes dc lf st o).lastError.isSome = true ∧
    (refreshStep modes dc lf st o).running = st.running := by
  rcases hfail with rfl | ⟨status, rfl⟩ | rfl <;>
    simp [refreshStep, _async_update_data]

/-- C3 witness: a transport error against a state holding a previous
snapshot. -/
theorem C3_witness :
    (refreshStep ["TRAIN"] "" "" ⟨some [depActive], Option.none, true⟩
        FetchOutcome.transportError).data = some [depActive] ∧
    (refreshStep ["TRAIN"] "" "" ⟨some [depActive], Option.none, true⟩
        FetchOutcome.transportError).lastError.isSome = true ∧
    (refreshStep ["TRAIN"] "" "" ⟨some [depActive], Option.none, true⟩
        FetchOutcome.transportError).running = true :=
  C3_refresh_failure_retains_snapshot ["TRAIN"] "" ""
    ⟨some [depActive], Option.none, true⟩ FetchOutcome.transportError (Or.inl rfl)

theorem pyTruthy_of_parse (s : String) (dt : PyDatetime)
    (hp : fromisoChars (replaceZ s.data) = some dt) : pyTruthy (.str s) = true := by
  by_cases hs : s = ""
  · subst hs
    simp [fromisoChars, readN, replaceZ, String.data] at hp
  · simp [pyTruthy, hs]

/-- C4: whenever the filtered list has a non-cancelled element (under the
spec's canonical journey-state test), the next-active view splits the
list into cancelled leading entries, the first non-cancelled element its
display derives from, and a tail, while its `upcoming` payload still
lists every element; the view itself is modelled from the spec (§4.3),
as no view variant beyond the slot sensor is in the repository
snapshot. -/
theorem C4_next_active_skips_cancelled (nowUs localOffS : Int) (L : List PyVal)
    (h : ∃ d ∈ L, isCancelled d = false) :
    ∃ l₁ d l₂, L = l₁ ++ d :: l₂ ∧ (∀ x ∈ l₁, isCancelled x = true) ∧
      isCancelled d = false ∧
      nextActiveDisplay nowUs localOffS L = nextActiveDisplayOf nowUs localOffS d ∧
      nextActiveUpcoming nowUs localOffS L = L.map (specSlotAttrs nowUs localOffS) := by
  induction L with
  | nil => simp at h
  | cons a L ih =>
    by_cases hc : isCancelled a = false
    · have hfind : (a :: L).find? (fun d => !isCancelled d) = some a :=
        List.find?_cons_of_pos _ (by simp [hc])
      exact ⟨[], a, L, by simp, by simp, hc, by simp [nextActiveDisplay, hfind], rfl⟩
    · have hc' : isCancelled a = true := by
        cases hcc : isCancelled a
        · exact absurd hcc hc
        · rfl
      obtain ⟨d, hd, hdc⟩ := h
      have hdL : ∃ x ∈ L, isCancelled x = false := by
        rcases List.mem_cons.mp hd with rfl | hmem
        · rw [hdc] at hc'; cases hc'
        · exact ⟨d, hmem, hdc⟩
      obtain ⟨l₁, d₀, l₂, hsplit, hall, hd₀, hdisp, _⟩ := ih hdL
      refine ⟨a :: l₁, d₀, l₂, by simp [hsplit], ?_, hd₀, ?_, rfl⟩
      · intro x hx
        rcases List.mem_cons.mp hx with rfl | hx₂
        · exact hc'
        · exact hall x hx₂
      · have hfind : (a :: L).find? (fun d => !isCancelled d) =
            L.find? (fun d => !isCancelled d) :=
          List.find?_cons_of_neg _ (by simp [hc'])
        have hstep : nextActiveDisplay nowUs localOffS (a :: L) =
            nextActiveDisplay nowUs localOffS L := by
          simp [nextActiveDisplay, hfind]
        rw [hstep, hdisp]

/-- C4 witness: the spec's `[cancelled, cancelled, active, active]`
example — the display derives from the element at index 2 and `upcoming`
lists all four. -/
theorem C4_witness :
    ∃ l₁ d l₂,
      [depJourneyCancelled, depJourneyCancelled, depActive, depActive] =
        l₁ ++ d :: l₂ ∧
      (∀ x ∈ l₁, isCancelled x = true) ∧ isCancelled d = false ∧
      nextActiveDisplay 0 0
          [depJourneyCancelled, depJourneyCancelled, depActive, depActive] =
        nextActiveDisplayOf 0 0 d ∧
      nextActiveUpcoming 0 0
          [depJourneyCancelled, depJourneyCancelled, depActive, depActive] =
        [depJourneyCancelled, depJourneyCancelled, depActive, depActive].map
          (specSlotAttrs 0 0) :=
  C4_next_active_skips_cancelled 0 0
    [depJourneyCancelled, depJourneyCancelled, depActive, depActive]
    ⟨depActive, by simp, rfl⟩

/-- C5 counterexample: a naive (zone-less) future expected timestamp
parses, yet `_calculate_minutes_until` returns 0 — it is not compared
against a local-clock now (the spec reading `minutesUntilSpec` yields
31558200 minutes at local now 0). -/
theorem C5_counterexample :
    minutesUntil (some "2030-01-01T10:00:00") 0 = .ok 0 ∧
    minutesUntilSpec (some "2030-01-01T10:00:00") 0 0 = 31558200 ∧
    ((31558200 : Int) ≠ 0) :=
  ⟨rfl, rfl, by decide⟩

theorem minutesUntil_parse_cases (e : String) (nowUs : Int) (dt : PyDatetime)
    (hp : fromisoChars (replaceZ e.data) = some dt) :
    (∀ o, dt.offS = some o →
      minutesUntil (some e) nowUs =
        .ok (max 0 ((dt.epochUs o - nowUs).tdiv 60000000))) ∧
    (dt.offS = Option.none → minutesUntil (some e) nowUs = .ok 0) := by
  have ht := pyTruthy_of_parse e dt hp
  rw [minutesUntil_eq_pure]
  constructor
  · intro o ho
    simp [pureMinutesV, optToPy, ht, String.toList, hp, ho]
  · intro ho
    simp [pureMinutesV, optToPy, ht, String.toList, hp, ho]

/-- C5 (amended): a zone-aware expected timestamp is compared against
the aware UTC now; a naive expected timestamp is never compared at all —
the naive-minus-aware subtraction raises `TypeError` and the result
degrades to 0 — so no comparison ever mixes a naive and a zone-aware
instant. -/
theorem C5_frames (e : String) (nowUs : Int) (dt : PyDatetime)
    (hp : fromisoChars (replaceZ e.data) = some dt) :
    (∀ o, dt.offS = some o →
      minutesUntil (some e) nowUs =
        .ok (max 0 ((dt.epochUs o - nowUs).tdiv 60000000))) ∧
    (dt.offS = Option.none → minutesUntil (some e) nowUs = .ok 0) :=
  minutesUntil_parse_cases e nowUs dt hp

/-- C5 witness: an aware timestamp five minutes ahead of now yields 5;
the same wall-clock reading without a zone yields 0. -/
theorem C5_witness :
    minutesUntil (some "2030-01-01T10:05:00Z") 1893492000000000 = .ok 5 ∧
    minutesUntil (some "2030-01-01T10:05:00") 1893492000000000 = .ok 0 := by
  constructor
  · have h := (C5_frames "2030-01-01T10:05:00Z" 1893492000000000
      ⟨1893492300000000, some 0⟩ rfl).1 0 rfl
    rw [h]
    rfl
  · exact (C5_frames "2030-01-01T10:05:00" 1893492000000000
      ⟨1893492300000000, Option.none⟩ rfl).2 rfl

/-- C6 counterexample: both timestamps are present and parse (one aware,
one naive), yet `delayMinutes` returns absent — contradicting "absent
only when an input is missing or unparsable, otherwise an integer". -/
theorem C6_counterexample :
    (fromisoChars (replaceZ ("2030-01-01T10:00:00Z".data))).isSome = true ∧
    (fromisoChars (replaceZ ("2030-01-01T10:05:00".data))).isSome = true ∧
    delayMinutes (some "2030-01-01T10:00:00Z") (some "2030-01-01T10:05:00") =
      .ok Option.none :=
  ⟨rfl, rfl, rfl⟩

/-- C6 (amended): `delayMinutes` is total and equals its pure
counterpart; it is absent when an input is missing (falsy) or fails to
parse, AND when the two timestamps parse in different frames (one naive,
one aware); when both parse in the same frame it is the truncated minute
difference; and it is antisymmetric under swapping the arguments. -/
theorem C6_delay (s e : Option String) :
    delayMinutes s e = .ok (pureDelayV (optToPy s) (optToPy e)) ∧
    (s = Option.none ∨ e = Option.none ∨ s = some "" ∨ e = some "" →
      delayMinutes s e = .ok Option.none) ∧
    (∀ a b sdt edt, s = some a → e = some b →
      fromisoChars (replaceZ a.data) = some sdt →
      fromisoChars (replaceZ b.data) = some edt →
      (∀ os oe, sdt.offS = some os → edt.offS = some oe →
        delayMinutes s e =
          .ok (some ((edt.epochUs oe - sdt.epochUs os).tdiv 60000000))) ∧
      (sdt.offS = Option.none → edt.offS = Option.none →
        delayMinutes s e = .ok (some ((edt.wallUs - sdt.wallUs).tdiv 60000000))) ∧
      (sdt.offS.isSome ≠ edt.offS.isSome → delayMinutes s e = .ok Option.none)) ∧
    delayMinutes s e = excNegOpt (delayMinutes e s) := by
  refine ⟨delayMinutes_eq_pure s e, ?_, ?_, ?_⟩
  · rintro (rfl | rfl | rfl | rfl) <;>
      (rw [delayMinutes_eq_pure]; simp [pureDelayV, optToPy, pyTruthy])
  · intro a b sdt edt hs he hpa hpb
    subst hs
    subst he
    have hta := pyTruthy_of_parse a sdt hpa
    have htb := pyTruthy_of_parse b edt hpb
    refine ⟨?_, ?_, ?_⟩
    · intro os oe hos hoe
      rw [delayMinutes_eq_pure]
      simp [pureDelayV, optToPy, hta, htb, String.toList, hpa, hpb, hos, hoe]
    · intro hos hoe
      rw [delayMinutes_eq_pure]
      simp [pureDelayV, optToPy, hta, htb, String.toList, hpa, hpb, hos, hoe]
    · intro hmix
      rw [delayMinutes_eq_pure]
      cases hos : sdt.offS with
      | none =>
        cases hoe : edt.offS with
        | none => rw [hos, hoe] at hmix; simp at hmix
        | some oe =>
          simp [pureDelayV, optToPy, hta, htb, String.toList, hpa, hpb, hos, hoe]
      | some os =>
        cases hoe : edt.offS with
        | none =>
          simp [pureDelayV, optToPy, hta, htb, String.toList, hpa, hpb, hos, hoe]
        | some oe => rw [hos, hoe] at hmix; simp at hmix
  · rw [delayMinutes_eq_pure s e, delayMinutes_eq_pure e s]
    simp only [excNegOpt]
    exact congrArg Except.ok (pureDelayV_antisymm (optToPy e) (optToPy s))

/-- C6 witness: five minutes of delay in UTC, and the sign flips when
the arguments are swapped. -/
theorem C6_witness :
    delayMinutes (some "2030-01-01T10:00:00Z") (some "2030-01-01T10:05:00Z") =
      .ok (some 5) ∧
    delayMinutes (some "2030-01-01T10:05:00Z") (some "2030-01-01T10:00:00Z") =
      .ok (some (-5)) := by
  have h := ((C6_delay (some "2030-01-01T10:00:00Z")
      (some "2030-01-01T10:05:00Z")).2.2.1
    "2030-01-01T10:00:00Z" "2030-01-01T10:05:00Z"
    ⟨1893492000000000, some 0⟩ ⟨1893492300000000, some 0⟩
    rfl rfl rfl rfl).1 0 0 rfl rfl
  constructor
  · rw [h]
    rfl
  · have ha := (C6_delay (some "2030-01-01T10:05:00Z")
      (some "2030-01-01T10:00:00Z")).2.2.2
    rw [ha, h]
    rfl

theorem pureMinutesV_nonneg (ev : PyVal) (nowUs : Int) :
    0 ≤ pureMinutesV ev nowUs := by
  unfold pureMinutesV
  repeat' split
  all_goals first
    | exact le_refl 0
    | exact le_max_left 0 _

/-- C7 counterexample: a naive future expected timestamp parses, yet
`_calculate_minutes_until` returns 0, not the positive value
`max(0, floor((expected - now) in seconds / 60))` of the claim. -/
theorem C7_counterexample :
    minutesUntil (some "2030-01-01T10:00:00") 0 = .ok 0 ∧
    fromisoChars (replaceZ ("2030-01-01T10:00:00".data)) =
      some ⟨1893492000000000, Option.none⟩ ∧
    max 0 ((1893492000000000 - 0 : Int).fdiv 60000000) = 31558200 ∧
    ((31558200 : Int) ≠ 0) :=
  ⟨rfl, rfl, by decide, by decide⟩

/-- C7 (amended): `minutesUntil` is total and never negative; it is 0
for an absent timestamp, 0 for an unparsable one, 0 for a naive
(zone-less) one, and for an aware timestamp it equals
`max 0 (floor((expected - now) seconds / 60))`, in particular 0 whenever
the expected instant is at or before now. -/
theorem C7_minutes_until (e : Option String) (nowUs : Int) :
    (∃ n, minutesUntil e nowUs = .ok n ∧ 0 ≤ n) ∧
    (e = Option.none → minutesUntil e nowUs = .ok 0) ∧
    (∀ s, e = some s → fromisoChars (replaceZ s.data) = Option.none →
      minutesUntil e nowUs = .ok 0) ∧
    (∀ s dt, e = some s → fromisoChars (replaceZ s.data) = some dt →
      dt.offS = Option.none → minutesUntil e nowUs = .ok 0) ∧
    (∀ s dt o, e = some s → fromisoChars (replaceZ s.data) = some dt →
      dt.offS = some o →
      minutesUntil e nowUs = .ok (max 0 ((dt.epochUs o - nowUs).fdiv 60000000)) ∧
      (dt.epochUs o ≤ nowUs → minutesUntil e nowUs = .ok 0)) := by
  refine ⟨⟨pureMinutesV (optToPy e) nowUs, minutesUntil_eq_pure e nowUs,
    pureMinutesV_nonneg _ _⟩, ?_, ?_, ?_, ?_⟩
  · rintro rfl
    rw [minutesUntil_eq_pure]
    rfl
  · rintro s rfl hp
    rw [minutesUntil_eq_pure]
    by_cases hs : s = ""
    · subst hs
      rfl
    · have ht : pyTruthy (.str s) = true := by simp [pyTruthy, hs]
      simp [pureMinutesV, optToPy, ht, String.toList, hp]
  · rintro s dt rfl hp ho
    exact (minutesUntil_parse_cases s nowUs dt hp).2 ho
  · rintro s dt o rfl hp ho
    have h := (minutesUntil_parse_cases s nowUs dt hp).1 o ho
    constructor
    · rw [h, max0_tdiv_eq_max0_fdiv]
    · intro hle
      rw [h]
      have h0 : dt.epochUs o - nowUs ≤ 0 := by omega
      have hnp := tdiv_60000000_nonpos _ h0
      have : max 0 ((dt.epochUs o - nowUs).tdiv 60000000) = 0 := max_eq_left hnp
      rw [this]

/-- C7 witness: an aware expected instant at or before now yields 0. -/
theorem C7_witness :
    minutesUntil (some "2030-01-01T10:00:00Z") 1893492300000000 = .ok 0 :=
  ((C7_minutes_until (some "2030-01-01T10:00:00Z") 1893492300000000).2.2.2.2
    "2030-01-01T10:00:00Z" ⟨1893492000000000, some 0⟩ 0 rfl rfl rfl).2 (by decide)

/-- C8: a slot is available exactly when the coordinator reports success
and the slot index is within the filtered list; past the end of the list
the slot is unavailable and its display value is `None`. -/
theorem C8_slot_availability (ctx : SensorCtx) :
    (available ctx = true ↔
      ctx.lastUpdateSuccess = true ∧
        ∃ l, ctx.data = some l ∧ ctx.index < l.length) ∧
    (∀ l, ctx.data = some l → l.length ≤ ctx.index →
      available ctx = false ∧ native_value ctx = .ok PyVal.none) := by
  have hdep : ∀ l, ctx.data = some l → l.length ≤ ctx.index →
      _departure ctx = Option.none := by
    intro l hl hlen
    unfold _departure
    rw [hl]
    exact if_pos (Or.inr hlen)
  have hdep2 : ∀ l, ctx.data = some l → ctx.index < l.length →
      (_departure ctx).isSome = true := by
    intro l hl hlt
    unfold _departure
    rw [hl]
    show (if l.isEmpty = true ∨ l.length ≤ ctx.index then (Option.none : Option PyVal)
      else l.get? ctx.index).isSome = true
    rw [if_neg]
    · rw [List.get?_eq_get hlt]
      rfl
    · rintro (he | hge)
      · rw [List.isEmpty_iff] at he
        subst he
        simp at hlt
      · omega
  constructor
  · constructor
    · intro hav
      unfold available at hav
      rw [Bool.and_eq_true] at hav
      obtain ⟨h1, h2⟩ := hav
      refine ⟨h1, ?_⟩
      cases hl : ctx.data with
      | none =>
        unfold _departure at h2
        rw [hl] at h2
        simp at h2
      | some l =>
        refine ⟨l, rfl, ?_⟩
        by_contra hge
        push_neg at hge
        rw [hdep l hl hge] at h2
        simp at h2
    · rintro ⟨h1, l, hl, hlt⟩
      unfold available
      rw [h1, hdep2 l hl hlt]
      rfl
  · intro l hl hlen
    constructor
    · unfold available
      rw [hdep l hl hlen]
      simp
    · unfold native_value
      rw [hdep l hl hlen]

/-- C8 witness: three configured slots over a one-element filtered list
— slot 2 is unavailable with an absent display value, while slot 0 is
available. -/
theorem C8_witness :
    available ⟨true, some [depActive], 2⟩ = false ∧
    native_value ⟨true, some [depActive], 2⟩ = .ok PyVal.none ∧
    available ⟨true, some [depActive], 0⟩ = true := by
  refine ⟨?_, ?_, ?_⟩
  · exact ((C8_slot_availability ⟨true, some [depActive], 2⟩).2 [depActive]
      rfl (by decide)).1
  · exact ((C8_slot_availability ⟨true, some [depActive], 2⟩).2 [depActive]
      rfl (by decide)).2
  · exact (C8_slot_availability ⟨true, some [depActive], 0⟩).1.mpr
      ⟨rfl, [depActive], rfl, by decide⟩

/-- C9 counterexample: a single JSON-shaped record whose `line` field is
the string "17" (a JSON map record, but not the documented nested-object
shape) makes the filter raise `AttributeError` — so the filter is not
total over all JSON-shaped map records. -/
theorem C9_counterexample :
    filterDeps ["TRAIN"] "" "" [PyVal.dict [("line", PyVal.str "17")]] =
      .error PyExc.attributeError :=
  rfl

/-- C9 (amended): the three timestamp helpers are total over their
documented `str | None` domain, and every parse failure degrades
locally — `delayMinutes` to absent (whichever side fails to parse),
`minutesUntil` to 0, `formatClock` to absent; the filter is total over
records whose `line` field, when present, is a nested map — but a
record whose `line` field holds a non-map value makes it raise
`AttributeError`. -/
theorem C9_totality :
    (∀ s e : Option String, ∃ o, delayMinutes s e = .ok o) ∧
    (∀ (e : Option String) (nowUs : Int), ∃ n, minutesUntil e nowUs = .ok n) ∧
    (∀ (t : Option String) (localOffS : Int), ∃ r, formatClock t localOffS = .ok r) ∧
    (∀ (a : String) (e : Option String),
      fromisoChars (replaceZ a.data) = Option.none →
      delayMinutes (some a) e = .ok Option.none ∧
      delayMinutes e (some a) = .ok Option.none) ∧
    (∀ (a : String) (nowUs : Int), fromisoChars (replaceZ a.data) = Option.none →
      minutesUntil (some a) nowUs = .ok 0) ∧
    (∀ (a : String) (localOffS : Int),
      fromisoChars (replaceZ a.data) = Option.none →
      formatClock (some a) localOffS = .ok Option.none) ∧
    (∀ (modes : List String) (dc lf : String) (deps : List PyVal),
      (∀ d ∈ deps, okFilterRec d = true) →
      ∃ out, filterDeps modes dc lf deps = .ok out) := by
  refine ⟨?_, ?_, ?_, ?_, ?_, ?_, ?_⟩
  · exact fun s e => ⟨_, delayMinutes_eq_pure s e⟩
  · exact fun e nowUs => ⟨_, minutesUntil_eq_pure e nowUs⟩
  · exact fun t localOffS => ⟨_, formatClock_eq_pure t localOffS⟩
  · intro a e hp
    by_cases ha : a = ""
    · subst ha
      refine ⟨?_, ?_⟩ <;>
        (rw [delayMinutes_eq_pure]; simp [pureDelayV, optToPy, pyTruthy])
    · have hta : pyTruthy (.str a) = true := by simp [pyTruthy, ha]
      refine ⟨?_, ?_⟩ <;> rw [delayMinutes_eq_pure] <;> cases e with
      | none => simp [pureDelayV, optToPy, pyTruthy]
      | some b =>
        by_cases hb : b = ""
        · subst hb
          simp [pureDelayV, optToPy, pyTruthy]
        · have htb : pyTruthy (.str b) = true := by simp [pyTruthy, hb]
          cases hpb : fromisoChars (replaceZ b.data) with
          | none => simp [pureDelayV, optToPy, hta, htb, String.toList, hp, hpb]
          | some bdt => simp [pureDelayV, optToPy, hta, htb, String.toList, hp, hpb]
  · intro a nowUs hp
    by_cases ha : a = ""
    · subst ha
      rw [minutesUntil_eq_pure]
      rfl
    · have hta : pyTruthy (.str a) = true := by simp [pyTruthy, ha]
      rw [minutesUntil_eq_pure]
      simp [pureMinutesV, optToPy, hta, String.toList, hp]
  · intro a localOffS hp
    by_cases ha : a = ""
    · subst ha
      rw [formatClock_eq_pure]
      rfl
    · have hta : pyTruthy (.str a) = true := by simp [pyTruthy, ha]
      rw [formatClock_eq_pure]
      simp [pureFmtV, optToPy, hta, String.toList, hp]
  · exact fun modes dc lf deps h => ⟨_, filterDeps_pure modes dc lf deps h⟩

/-- C9 witness: the filter succeeding on a well-shaped record, and each
timestamp helper's pinned degraded value on the malformed timestamp
"not a timestamp". -/
theorem C9_witness :
    (∃ out, filterDeps ["TRAIN"] "1" "19" [depLine19] = .ok out) ∧
    delayMinutes (some "not a timestamp") (some "2030-01-01T10:00:00Z") =
      .ok Option.none ∧
    minutesUntil (some "not a timestamp") 0 = .ok 0 ∧
    formatClock (some "not a timestamp") 0 = .ok Option.none :=
  ⟨C9_totality.2.2.2.2.2.2 ["TRAIN"] "1" "19" [depLine19]
      (by intro d hd; simp at hd; subst hd; rfl),
   (C9_totality.2.2.2.1 "not a timestamp" (some "2030-01-01T10:00:00Z") rfl).1,
   C9_totality.2.2.2.2.1 "not a timestamp" 0 rfl,
   C9_totality.2.2.2.2.2.1 "not a timestamp" 0 rfl⟩

theorem pureMsgs_truthy (ds : List PyVal) : ∀ m ∈ pureMsgs ds, pyTruthy m = true := by
  induction ds with
  | nil => simp [pureMsgs]
  | cons d ds ih =>
    by_cases hq : pyTruthy (getField d "message") = true
    · simp only [pureMsgs]
      rw [if_pos hq]
      intro m hm
      rcases List.mem_cons.mp hm with rfl | hm2
      · exact hq
      · exact ih m hm2
    · simp only [pureMsgs]
      rw [if_neg hq]
      exact ih

/-- C10: for a well-shaped departure whose deviation list is `ds`, the
derived attributes carry a `deviations` key exactly when `ds` has at
least one entry with a truthy (non-empty) message; its value is the list
of those messages in original order, and entries whose message is absent
or empty are dropped (an all-empty list yields no key). -/
theorem C10_deviations (nowUs localOffS : Int) (ctx : SensorCtx)
    (kvs : List (String × PyVal)) (ds : List PyVal)
    (hd : _departure ctx = some (.dict kvs))
    (ht : pyTruthy (PyVal.dict kvs) = true)
    (hok : okDep (.dict kvs) = true)
    (hdv : alookupD kvs "deviations" (.list []) = .list ds) :
    (extra_state_attributes nowUs localOffS ctx).map
        (fun a => alookup a "deviations") =
      .ok (if (pureMsgs ds).isEmpty then Option.none
        else some (.list (pureMsgs ds))) ∧
    (∀ m ∈ pureMsgs ds, pyTruthy m = true) := by
  refine ⟨?_, pureMsgs_truthy ds⟩
  rw [extra_ok nowUs localOffS ctx kvs hd ht hok]
  simp only [Except.map]
  rw [alookup_pureAttrs_deviations]
  simp only [pureDevTail, hdv]
  cases hes : ds.isEmpty
  · cases hms : (pureMsgs ds).isEmpty
    · simp [hes, hms, alookup]
    · simp [hes, hms, alookup]
  · have hnil : ds = [] := List.isEmpty_iff.mp hes
    subst hnil
    simp [alookup, pureMsgs]

/-- C10 witness: one truthy message "Delay", one empty message, one
entry with no message — the attribute value is exactly
`["Delay"]`. -/
theorem C10_witness :
    (extra_state_attributes 0 0
        ⟨true, some [PyVal.dict [("deviations", PyVal.list
          [PyVal.dict [("message", PyVal.str "Delay")],
           PyVal.dict [("message", PyVal.str "")],
           PyVal.dict []])]], 0⟩).map
      (fun a => alookup a "deviations") =
      .ok (some (PyVal.list [PyVal.str "Delay"])) := by
  exact (C10_deviations 0 0
    ⟨true, some [PyVal.dict [("deviations", PyVal.list
      [PyVal.dict [("message", PyVal.str "Delay")],
       PyVal.dict [("message", PyVal.str "")],
       PyVal.dict []])]], 0⟩
    [("deviations", PyVal.list
      [PyVal.dict [("message", PyVal.str "Delay")],
       PyVal.dict [("message", PyVal.str "")],
       PyVal.dict []])]
    [PyVal.dict [("message", PyVal.str "Delay")],
     PyVal.dict [("message", PyVal.str "")],
     PyVal.dict []]
    rfl rfl rfl rfl).1
